import Mathlib

/-!
Shallow embedding of `nuklear_cairo.h`, a Nuklear rendering backend using
cairo software rendering, together with proofs about its font/face cache,
its drawing primitives and its per-frame render loop.

Modelling conventions:
* Calls into the external cairo / FreeType libraries are recorded as a
  trace of `CairoOp` values, in the order the C code issues them.
* C `double` arithmetic is embedded as `Rat`.  Angles are recorded in the
  unit in which the source writes them, scaled so that `NK_PI` is `180`
  (the code only ever forms angles as multiples of `NK_PI / 180`, so the
  recorded value is the angle in degrees).  Angles taken verbatim from an
  arc command are passed through unchanged.
* Nuklear integer fields keep their C ranges: `short` coordinates become
  `Int`, `unsigned short` widths / heights / thicknesses / rounding become
  `Nat`, `nk_byte` color channels become `Nat`.
* Results of library queries (font extents, text extents) are supplied by
  oracle functions, since the libraries are external collaborators.
* The fatal `assert` calls in the cache become `Except` errors.
-/

/-- `struct nk_color`: four 8-bit channels. -/
structure NkColor where
  r : Nat
  g : Nat
  b : Nat
  a : Nat
deriving DecidableEq, Repr

/-- `struct nk_vec2i`: an integer point. -/
structure Vec2i where
  x : Int
  y : Int
deriving DecidableEq, Repr

/-- `cairo_font_extents_t`: vertical metrics reported by cairo. -/
structure FontExtents where
  ascent : Rat
  descent : Rat
  height : Rat
  maxXAdvance : Rat
  maxYAdvance : Rat
deriving DecidableEq, Repr

/-- `cairo_text_extents_t`: metrics of one text run reported by cairo. -/
structure TextExtents where
  xBearing : Rat
  yBearing : Rat
  width : Rat
  height : Rat
  xAdvance : Rat
  yAdvance : Rat
deriving DecidableEq, Repr

/-- One call into the cairo library, recorded with the arguments the C code
passes.  `setMatrixSaved` is `cairo_set_matrix` applied to the matrix stored
by the preceding `getMatrix`. -/
inductive CairoOp where
  | setSourceRgba (r g b a : Rat)
  | setLineWidth (w : Rat)
  | newSubPath
  | moveTo (x y : Rat)
  | lineTo (x y : Rat)
  | closePath
  | rectangle (x y w h : Rat)
  | arc (cx cy r a0 a1 : Rat)
  | stroke
  | fill
  | resetClip
  | clip
  | getMatrix
  | scale (xs ys : Rat)
  | createSurfaceForData (w h : Nat)
  | setSourceSurface (x y : Rat)
  | paint
  | setMatrixSaved
  | setFontFace (face : Nat)
  | setFontSize (size : Int)
  | fontExtentsQuery
  | showText (bytes : List Nat)
  | surfaceFlush
  | surfaceDestroy
  | contextDestroy
deriving DecidableEq, Repr

/-- Path-construction calls (as opposed to state setting, painting or
lifetime calls). -/
def CairoOp.isPathOp : CairoOp → Bool
  | .newSubPath => true
  | .moveTo _ _ => true
  | .lineTo _ _ => true
  | .closePath => true
  | .rectangle _ _ _ _ => true
  | .arc _ _ _ _ _ => true
  | _ => false

/-- The path-construction subsequence of a trace. -/
def pathOps (l : List CairoOp) : List CairoOp :=
  l.filter CairoOp.isPathOp

/-- Calls that can change pixels of the target surface.  Path building,
clipping, source/transform state and flushing do not paint by themselves. -/
def CairoOp.paints : CairoOp → Bool
  | .stroke => true
  | .fill => true
  | .paint => true
  | .showText _ => true
  | _ => false

/-- `nk_cairo_set_color`: convert 0–255 channels to 0.0–1.0 and set them. -/
def nk_cairo_set_color (col : NkColor) : List CairoOp :=
  [.setSourceRgba ((col.r : Rat) / 255) ((col.g : Rat) / 255)
    ((col.b : Rat) / 255) ((col.a : Rat) / 255)]

/-- `nk_cairo_scissor`: reset the clip, trace the rectangle, clip to it. -/
def nk_cairo_scissor (x y w h : Rat) : List CairoOp :=
  [.resetClip, .newSubPath, .moveTo x y, .lineTo (x + w) y,
   .lineTo (x + w) (y + h), .lineTo x (y + h), .lineTo x y, .clip]

/-- `nk_cairo_stroke_line`. -/
def nk_cairo_stroke_line (x0 y0 x1 y1 : Int) (thickness : Int)
    (col : NkColor) : List CairoOp :=
  nk_cairo_set_color col ++
  [.setLineWidth (thickness : Rat), .moveTo (x0 : Rat) (y0 : Rat),
   .lineTo (x1 : Rat) (y1 : Rat), .stroke]

/-- `nk_cairo_stroke_polygon`: the C code indexes `pnts[0]` unconditionally,
so the point array is modelled as a head point plus the remaining points. -/
def nk_cairo_stroke_polygon (p0 : Vec2i) (rest : List Vec2i)
    (thickness : Int) (col : NkColor) : List CairoOp :=
  nk_cairo_set_color col ++
  [.setLineWidth (thickness : Rat), .newSubPath,
   .moveTo (p0.x : Rat) (p0.y : Rat)] ++
  rest.map (fun p => .lineTo (p.x : Rat) (p.y : Rat)) ++
  [.lineTo (p0.x : Rat) (p0.y : Rat), .closePath, .stroke]

/-- `nk_cairo_fill_polygon`. -/
def nk_cairo_fill_polygon (p0 : Vec2i) (rest : List Vec2i)
    (col : NkColor) : List CairoOp :=
  nk_cairo_set_color col ++
  [.newSubPath, .moveTo (p0.x : Rat) (p0.y : Rat)] ++
  rest.map (fun p => .lineTo (p.x : Rat) (p.y : Rat)) ++
  [.lineTo (p0.x : Rat) (p0.y : Rat), .closePath, .fill]

/-- `nk_cairo_stroke_arc`: the command's float angles pass through. -/
def nk_cairo_stroke_arc (x y : Int) (r : Int) (a0 a1 : Rat)
    (thickness : Int) (col : NkColor) : List CairoOp :=
  nk_cairo_set_color col ++
  [.setLineWidth (thickness : Rat), .newSubPath,
   .arc (x : Rat) (y : Rat) (r : Rat) a0 a1, .closePath, .stroke]

/-- `nk_cairo_fill_arc`. -/
def nk_cairo_fill_arc (x y : Int) (r : Int) (a0 a1 : Rat)
    (col : NkColor) : List CairoOp :=
  nk_cairo_set_color col ++
  [.newSubPath, .arc (x : Rat) (y : Rat) (r : Rat) a0 a1, .closePath, .fill]

/-- `nk_cairo_fill_circle`: a full arc from `0` to `2 * NK_PI`
(recorded as `0 .. 360` in the degree scale). -/
def nk_cairo_fill_circle (x y : Int) (r : Int) (col : NkColor) :
    List CairoOp :=
  nk_cairo_set_color col ++
  [.newSubPath, .arc (x : Rat) (y : Rat) (r : Rat) 0 360, .closePath, .fill]

/-- `nk_cairo_stroke_circle`. -/
def nk_cairo_stroke_circle (x y : Int) (r : Int) (thickness : Int)
    (col : NkColor) : List CairoOp :=
  nk_cairo_set_color col ++
  [.setLineWidth (thickness : Rat), .newSubPath,
   .arc (x : Rat) (y : Rat) (r : Rat) 0 360, .closePath, .stroke]

/-- `nk_cairo_stroke_rect`: plain `cairo_rectangle` when `r == 0`,
otherwise four quarter-circle corner arcs (angles recorded in degrees,
i.e. in multiples of the code's `degrees = NK_PI / 180`) joined by the
straight edges cairo adds implicitly, then closed. -/
def nk_cairo_stroke_rect (x y w h : Int) (r : Int) (thickness : Int)
    (col : NkColor) : List CairoOp :=
  nk_cairo_set_color col ++
  [.setLineWidth (thickness : Rat)] ++
  (if r = 0 then
    [.rectangle (x : Rat) (y : Rat) (w : Rat) (h : Rat)]
  else
    [.newSubPath,
     .arc ((x : Rat) + w - r) ((y : Rat) + r) (r : Rat) (-90) 0,
     .arc ((x : Rat) + w - r) ((y : Rat) + h - r) (r : Rat) 0 90,
     .arc ((x : Rat) + r) ((y : Rat) + h - r) (r : Rat) 90 180,
     .arc ((x : Rat) + r) ((y : Rat) + r) (r : Rat) 180 270,
     .closePath]) ++
  [.stroke]

/-- `nk_cairo_fill_rect`: same path as `nk_cairo_stroke_rect`, filled. -/
def nk_cairo_fill_rect (x y w h : Int) (r : Int) (col : NkColor) :
    List CairoOp :=
  nk_cairo_set_color col ++
  (if r = 0 then
    [.rectangle (x : Rat) (y : Rat) (w : Rat) (h : Rat)]
  else
    [.newSubPath,
     .arc ((x : Rat) + w - r) ((y : Rat) + r) (r : Rat) (-90) 0,
     .arc ((x : Rat) + w - r) ((y : Rat) + h - r) (r : Rat) 0 90,
     .arc ((x : Rat) + r) ((y : Rat) + h - r) (r : Rat) 90 180,
     .arc ((x : Rat) + r) ((y : Rat) + r) (r : Rat) 180 270,
     .closePath]) ++
  [.fill]

/-- `nk_cairo_stroke_triangle`. -/
def nk_cairo_stroke_triangle (x0 y0 x1 y1 x2 y2 : Int) (thickness : Int)
    (col : NkColor) : List CairoOp :=
  nk_cairo_set_color col ++
  [.setLineWidth (thickness : Rat), .newSubPath,
   .moveTo (x0 : Rat) (y0 : Rat), .lineTo (x1 : Rat) (y1 : Rat),
   .lineTo (x2 : Rat) (y2 : Rat), .lineTo (x0 : Rat) (y0 : Rat),
   .closePath, .stroke]

/-- `nk_cairo_fill_triangle`. -/
def nk_cairo_fill_triangle (x0 y0 x1 y1 x2 y2 : Int)
    (col : NkColor) : List CairoOp :=
  nk_cairo_set_color col ++
  [.newSubPath, .moveTo (x0 : Rat) (y0 : Rat), .lineTo (x1 : Rat) (y1 : Rat),
   .lineTo (x2 : Rat) (y2 : Rat), .lineTo (x0 : Rat) (y0 : Rat),
   .closePath, .fill]

/-- `nk_cairo_stroke_polyline`: move to the first point, line to each later
point, then `cairo_close_path` and stroke.  (Unlike
`nk_cairo_stroke_polygon` there is no explicit `line_to` back to the first
point, but the `cairo_close_path` call is still present in the source.) -/
def nk_cairo_stroke_polyline (p0 : Vec2i) (rest : List Vec2i)
    (thickness : Int) (col : NkColor) : List CairoOp :=
  nk_cairo_set_color col ++
  [.setLineWidth (thickness : Rat), .newSubPath,
   .moveTo (p0.x : Rat) (p0.y : Rat)] ++
  rest.map (fun p => .lineTo (p.x : Rat) (p.y : Rat)) ++
  [.closePath, .stroke]

/-- `struct nk_image` as used by the code: only the native pixel size and an
opaque data pointer (not modelled) are read. -/
structure NkImage where
  w : Nat
  h : Nat
deriving DecidableEq, Repr

/-- `nk_cairo_drawimage`: save the transform, scale by
`(w / img.w, h / img.h)`, create a surface over the image data, set it as
source at the inverse-scaled position, paint, destroy the surface and
restore the transform. -/
def nk_cairo_drawimage (x y : Int) (w h : Int) (img : NkImage) :
    List CairoOp :=
  let xs : Rat := (w : Rat) / (img.w : Rat)
  let ys : Rat := (h : Rat) / (img.h : Rat)
  [.getMatrix, .scale xs ys, .createSurfaceForData img.w img.h,
   .setSourceSurface ((x : Rat) / xs) ((y : Rat) / ys), .paint,
   .surfaceDestroy, .setMatrixSaved]

/-- `nk_cairo_font_t`: a sized-font entry, holding the face table index and
pixel size used for all cairo font selection, plus the `nk_user_font.height`
value computed at creation time. -/
structure FontEntry where
  face : Nat
  size : Int
  height : Rat
deriving DecidableEq, Repr

/-- The C code copies the byte span into a NUL-terminated buffer before
handing it to cairo, so cairo sees the span only up to the first 0 byte. -/
def cString (bytes : List Nat) : List Nat :=
  bytes.takeWhile (fun b => b != 0)

/-- `nk_cairo_draw_text`: select the font's face and size, query the font
extents for the ascent, set the color, move to `(x, y + ascent)` and show
the (NUL-terminated copy of the) text.  `fe` is the `cairo_font_extents`
oracle, indexed by face table index and size. -/
def nk_cairo_draw_text (fe : Nat → Int → FontExtents) (font : FontEntry)
    (x y : Int) (text : List Nat) (fg : NkColor) : List CairoOp :=
  [.setFontFace font.face, .setFontSize font.size, .fontExtentsQuery] ++
  nk_cairo_set_color fg ++
  [.moveTo (x : Rat) ((y : Rat) + (fe font.face font.size).ascent),
   .showText (cString text)]

/-- `nk_cairo_text_width`: select the handle's face and size on the scratch
context, query the text extents of the NUL-terminated copy, and return
`NK_MAX(width + x_bearing, x_advance)`.  `te` is the `cairo_text_extents`
oracle, indexed by face table index, size and the bytes handed to cairo.
The height argument `h` comes from Nuklear but is never read. -/
def nk_cairo_text_width (te : Nat → Int → List Nat → TextExtents)
    (cfont : FontEntry) (h : Rat) (text : List Nat) : Rat :=
  let e := te cfont.face cfont.size (cString text)
  max (e.width + e.xBearing) e.xAdvance

/-- Modelled from the spec (`measure_text` of §4.1): return
`max(extent_width + left_bearing, advance_width)` for the span, as reported
by the drawing library for the given face and size. -/
def spec_measure_text (te : Nat → Int → List Nat → TextExtents)
    (face : Nat) (size : Int) (span : List Nat) : Rat :=
  max ((te face size span).width + (te face size span).xBearing)
    ((te face size span).xAdvance)

/-- `#define MAXFONTS 16`. -/
def MAXFONTS : Nat := 16

/-- The process-wide cache: `nk_cairo_faces[0 .. nk_cairo_face)` holds the
loaded face paths (the opaque FreeType/cairo handles are not needed for the
lookups), `nk_cairo_fonts[0 .. nk_cairo_font)` the sized-font entries. -/
structure CairoState where
  faces : List String
  fonts : List FontEntry
deriving DecidableEq, Repr

/-- The empty tables (`nk_cairo_face = nk_cairo_font = 0`). -/
def initState : CairoState := ⟨[], []⟩

/-- The linear scan of the face table: index of the first entry whose path
compares equal by `strcmp`. -/
def findFace : List String → String → Option Nat
  | [], _ => none
  | f :: rest, ttf =>
      if f = ttf then some 0 else (findFace rest ttf).map (· + 1)

/-- The linear scan of the sized-font table: index of the first entry with
the given face index and size. -/
def findFont : List FontEntry → Nat → Int → Option Nat
  | [], _, _ => none
  | e :: rest, face, size =>
      if e.face = face ∧ e.size = size then some 0
      else (findFont rest face size).map (· + 1)

/-- The ways `nk_cairo_ttf` can die on an `assert`. -/
inductive TtfError where
  | faceCapacity
  | parseFailure
  | fontCapacity
deriving DecidableEq, Repr

/-- What a successful `nk_cairo_ttf` call yields: the updated tables, the
handle (`&nk_cairo_fonts[font]`, i.e. the stable index `font`), and whether
`FT_New_Face` was invoked (a font-file load). -/
structure TtfResult where
  state : CairoState
  handle : Nat
  loadedFile : Bool
deriving DecidableEq, Repr

/-- The second half of `nk_cairo_ttf`: look up `(face, size)` in the
sized-font table; if absent, append a new entry (asserting capacity),
computing `nk_user_font.height` from the font extents oracle `fe`. -/
def ttfSized (fe : Nat → Int → FontExtents) (s : CairoState) (face : Nat)
    (size : Int) (loaded : Bool) : Except TtfError TtfResult :=
  match findFont s.fonts face size with
  | some font => .ok ⟨s, font, loaded⟩
  | none =>
      if s.fonts.length < MAXFONTS then
        .ok ⟨{ s with
                fonts := s.fonts ++ [⟨face, size, (fe face size).height⟩] },
             s.fonts.length, loaded⟩
      else .error .fontCapacity

/-- `nk_cairo_ttf`: look up the path in the face table; if absent, append a
new face (asserting capacity, then `assert(0 == FT_New_Face(...))`, whose
success is the oracle `ftOk`); then find or create the sized font. -/
def nk_cairo_ttf (ftOk : String → Bool) (fe : Nat → Int → FontExtents)
    (s : CairoState) (ttf : String) (ttf_size : Int) :
    Except TtfError TtfResult :=
  match findFace s.faces ttf with
  | some face => ttfSized fe s face ttf_size false
  | none =>
      if s.faces.length < MAXFONTS then
        if ftOk ttf then
          ttfSized fe { s with faces := s.faces ++ [ttf] }
            s.faces.length ttf_size true
        else .error .parseFailure
      else .error .faceCapacity

/-- A sequence of `nk_cairo_ttf` calls, stopping at the first fatal assert. -/
def runTtfCalls (ftOk : String → Bool) (fe : Nat → Int → FontExtents) :
    List (String × Int) → CairoState → Except TtfError CairoState
  | [], s => .ok s
  | (t, sz) :: rest, s =>
      match nk_cairo_ttf ftOk fe s t sz with
      | .ok r => runTtfCalls ftOk fe rest r.state
      | .error e => .error e

/-- A Nuklear drawing command, with the payload fields the backend reads.
Field ranges follow the Nuklear structs (`short` coordinates, `unsigned
short` extents / thickness / rounding).  The text command's font pointer is
the sized-font entry its userdata points at; its `height` float is carried
but never read by this backend. -/
inductive NkCommand where
  | nop
  | scissor (x y : Int) (w h : Nat)
  | line (x0 y0 x1 y1 : Int) (thickness : Nat) (color : NkColor)
  | rect (x y : Int) (w h : Nat) (rounding : Nat) (thickness : Nat)
      (color : NkColor)
  | rectFilled (x y : Int) (w h : Nat) (rounding : Nat) (color : NkColor)
  | rectMultiColor
  | circle (x y : Int) (w h : Nat) (thickness : Nat) (color : NkColor)
  | circleFilled (x y : Int) (w h : Nat) (color : NkColor)
  | triangle (a b c : Vec2i) (thickness : Nat) (color : NkColor)
  | triangleFilled (a b c : Vec2i) (color : NkColor)
  | polygon (p0 : Vec2i) (rest : List Vec2i) (thickness : Nat)
      (color : NkColor)
  | polygonFilled (p0 : Vec2i) (rest : List Vec2i) (color : NkColor)
  | polyline (p0 : Vec2i) (rest : List Vec2i) (thickness : Nat)
      (color : NkColor)
  | text (font : FontEntry) (x y : Int) (w h : Nat) (str : List Nat)
      (height : Rat) (fg : NkColor)
  | curve
  | image (x y : Int) (w h : Nat) (img : NkImage) (col : NkColor)
  | arcCmd (cx cy : Int) (r : Nat) (a0 a1 : Rat) (thickness : Nat)
      (color : NkColor)
  | arcFilled (cx cy : Int) (r : Nat) (a0 a1 : Rat) (color : NkColor)
deriving DecidableEq, Repr

/-- One observable effect of the render loop: a cairo call or a line
written to `stderr`. -/
inductive Effect where
  | cairo (o : CairoOp)
  | diag (msg : String)
deriving DecidableEq, Repr

/-- The diagnostic lines of a trace. -/
def diags (l : List Effect) : List String :=
  l.filterMap (fun e => match e with | .diag m => some m | _ => none)

/-- The cairo calls of a trace. -/
def cairoOps (l : List Effect) : List CairoOp :=
  l.filterMap (fun e => match e with | .cairo o => some o | _ => none)

/-- One arm of the `switch (cmd->type)` dispatch in `nk_cairo_render`.
`fe` is the `cairo_font_extents` oracle used by the text command. -/
def renderCmd (fe : Nat → Int → FontExtents) : NkCommand → List Effect
  | .nop => []
  | .scissor x y w h =>
      (nk_cairo_scissor (x : Rat) (y : Rat) (w : Rat) (h : Rat)).map .cairo
  | .line x0 y0 x1 y1 t col =>
      (nk_cairo_stroke_line x0 y0 x1 y1 (t : Int) col).map .cairo
  | .rect x y w h r t col =>
      (nk_cairo_stroke_rect x y (w : Int) (h : Int) (r : Int) (t : Int)
        col).map .cairo
  | .rectFilled x y w h r col =>
      (nk_cairo_fill_rect x y (w : Int) (h : Int) (r : Int) col).map .cairo
  | .rectMultiColor =>
      [.diag "NK_COMMAND_RECT_MULTI_COLOR not implemented\n"]
  | .circle x y w h t col =>
      let r : Int := ((if w < h then w else h) / 2 : Nat)
      (nk_cairo_stroke_circle (x + r) (y + r) r (t : Int) col).map .cairo
  | .circleFilled x y w h col =>
      let r : Int := ((if w < h then w else h) / 2 : Nat)
      (nk_cairo_fill_circle (x + r) (y + r) r col).map .cairo
  | .triangle a b c t col =>
      (nk_cairo_stroke_triangle a.x a.y b.x b.y c.x c.y (t : Int)
        col).map .cairo
  | .triangleFilled a b c col =>
      (nk_cairo_fill_triangle a.x a.y b.x b.y c.x c.y col).map .cairo
  | .polygon p0 rest t col =>
      (nk_cairo_stroke_polygon p0 rest (t : Int) col).map .cairo
  | .polygonFilled p0 rest col =>
      (nk_cairo_fill_polygon p0 rest col).map .cairo
  | .polyline p0 rest t col =>
      (nk_cairo_stroke_polyline p0 rest (t : Int) col).map .cairo
  | .text font x y _ _ str _ fg =>
      (nk_cairo_draw_text fe font x y str fg).map .cairo
  | .curve =>
      [.diag "NK_COMMAND_CURVE not implemented\n"]
  | .image x y w h img _ =>
      (nk_cairo_drawimage x y (w : Int) (h : Int) img).map .cairo
  | .arcCmd cx cy r a0 a1 t col =>
      .diag "NK_COMMAND_ARC\n" ::
      (nk_cairo_stroke_arc cx cy (r : Int) a0 a1 (t : Int) col).map .cairo
  | .arcFilled cx cy r a0 a1 col =>
      .diag "NK_COMMAND_ARC_FILLED\n" ::
      (nk_cairo_fill_arc cx cy (r : Int) a0 a1 col).map .cairo

/-- `nk_cairo_render`: bind a surface and context to the frame buffer,
reset the scissor to the whole target, replay every command in order, then
flush the surface, destroy the surface, destroy the context, and
`nk_clear` the toolkit context.  The result is the trace of effects and the
toolkit's command list afterwards (always emptied by `nk_clear`). -/
def nk_cairo_render (fe : Nat → Int → FontExtents) (cmds : List NkCommand)
    (w h : Nat) : List Effect × List NkCommand :=
  ((nk_cairo_scissor 0 0 (w : Rat) (h : Rat)).map .cairo ++
    (cmds.map (renderCmd fe)).flatten ++
    [.cairo .surfaceFlush, .cairo .surfaceDestroy, .cairo .contextDestroy],
   [])

/-- Run a trace against an abstract pixel buffer `B`, given an
interpretation `interp` of cairo calls as buffer transformers.  Diagnostic
lines go to `stderr` and never touch the buffer. -/
def applyEffects {B : Type} (interp : CairoOp → B → B) :
    List Effect → B → B
  | [], buf => buf
  | .cairo o :: rest, buf => applyEffects interp rest (interp o buf)
  | .diag _ :: rest, buf => applyEffects interp rest buf

/-- Scale-only transform state: cairo's CTM restricted to the diagonal,
which is all this backend ever manipulates. -/
structure Ctm where
  sx : Rat
  sy : Rat
deriving DecidableEq, Repr

/-- Interpret a trace over the transform state: the current matrix plus the
slot filled by `cairo_get_matrix` and read by the final `cairo_set_matrix`. -/
def runCtm : List CairoOp → Ctm × Option Ctm → Ctm × Option Ctm
  | [], st => st
  | o :: rest, (m, saved) =>
      runCtm rest (match o with
        | .getMatrix => (m, some m)
        | .scale xs ys => (⟨m.sx * xs, m.sy * ys⟩, saved)
        | .setMatrixSaved => (saved.getD m, saved)
        | _ => (m, saved))

/-- The command kinds the backend does not implement (logged and skipped). -/
def NkCommand.unsupported : NkCommand → Bool
  | .curve => true
  | .rectMultiColor => true
  | _ => false

/-- The command kinds whose dispatch arm writes a line to `stderr`:
the two unsupported kinds plus the two arc kinds (which log and then
draw). -/
def NkCommand.logsDiag : NkCommand → Bool
  | .curve => true
  | .rectMultiColor => true
  | .arcCmd _ _ _ _ _ _ _ => true
  | .arcFilled _ _ _ _ _ _ => true
  | _ => false

/-- A concrete `cairo_text_extents` oracle, used only to instantiate
theorems at concrete inputs. -/
def te0 : Nat → Int → List Nat → TextExtents :=
  fun _ _ _ => ⟨1, 2, 3, 4, 5, 6⟩

/-- A concrete `cairo_font_extents` oracle, used only to instantiate
theorems at concrete inputs. -/
def fe0 : Nat → Int → FontExtents :=
  fun _ _ => ⟨1, 2, 3, 4, 5⟩

/-- A concrete `FT_New_Face`-succeeds oracle. -/
def ftOk0 : String → Bool := fun _ => true

/-- A concrete pixel-buffer interpretation: the buffer is the log of the
painting calls applied to it, and non-painting calls leave it alone. -/
def interp0 : CairoOp → List CairoOp → List CairoOp :=
  fun o b => if CairoOp.paints o then o :: b else b

lemma cairoOps_map_cairo (l : List CairoOp) :
    cairoOps (l.map Effect.cairo) = l := by
  induction l with
  | nil => rfl
  | cons a t ih => simpa [cairoOps, List.filterMap_cons] using ih

lemma diags_map_cairo (l : List CairoOp) :
    diags (l.map Effect.cairo) = [] := by
  induction l with
  | nil => rfl
  | cons a t ih => simpa [diags, List.filterMap_cons] using ih

lemma cString_eq_self (text : List Nat) : (0 : Nat) ∉ text →
    cString text = text := by
  induction text with
  | nil => intro _; rfl
  | cons b rest ih =>
      intro h0
      simp only [List.mem_cons, not_or] at h0
      have hb : (b != 0) = true := by
        simpa using fun e => h0.1 e.symm
      simp [cString, List.takeWhile_cons, hb]
      intro x hx e
      exact h0.2 (e ▸ hx)

/-- C10: the text-measurement callback never reads its height argument. -/
theorem C10_width_ignores_height (te : Nat → Int → List Nat → TextExtents)
    (cfont : FontEntry) (h1 h2 : Rat) (text : List Nat) :
    nk_cairo_text_width te cfont h1 text =
      nk_cairo_text_width te cfont h2 text := rfl

/-- C2: for a byte span without interior NUL (which is what the code hands
to cairo after its NUL-terminated copy), the measurement callback returns
`max(extent_width + x_bearing, x_advance)` as reported by cairo for the
handle's face and size. -/
theorem C2_text_width_formula (te : Nat → Int → List Nat → TextExtents)
    (cfont : FontEntry) (hgt : Rat) (text : List Nat)
    (h0 : (0 : Nat) ∉ text) :
    nk_cairo_text_width te cfont hgt text =
      spec_measure_text te cfont.face cfont.size text := by
  unfold nk_cairo_text_width spec_measure_text
  rw [cString_eq_self text h0]

theorem C2_text_width_formula_witness :
    nk_cairo_text_width te0 ⟨0, 12, 14⟩ 9 [72, 105] =
      spec_measure_text te0 0 12 [72, 105] :=
  C2_text_width_formula te0 ⟨0, 12, 14⟩ 9 [72, 105] (by decide)

/-- C3 (counterexample to the polyline clause): stroking the polyline
(0,0) → (10,0) → (10,10) issues `cairo_close_path` before `cairo_stroke`,
so the stroked path is closed back to the first point. -/
theorem C3_polyline_close_path :
    nk_cairo_stroke_polyline ⟨0, 0⟩ [⟨10, 0⟩, ⟨10, 10⟩] 1 ⟨0, 0, 0, 255⟩ =
      [.setSourceRgba 0 0 0 1, .setLineWidth 1, .newSubPath, .moveTo 0 0,
       .lineTo 10 0, .lineTo 10 10, .closePath, .stroke] := by
  norm_num [nk_cairo_stroke_polyline, nk_cairo_set_color]

/-- C5: with rounding 0 the emitted path is exactly the axis-aligned
rectangle; with positive rounding it is one sub-path of four quarter-circle
arcs of radius `r` (top-right −90°→0°, bottom-right 0°→90°, bottom-left
90°→180°, top-left 180°→270°, in the code's `NK_PI / 180` unit) closed
before the final stroke / fill, and the stroke / fill is the last call. -/
theorem C5_rect_path (x y w h r t : Int) (col : NkColor) :
    (r = 0 →
      pathOps (nk_cairo_stroke_rect x y w h r t col) =
        [.rectangle (x : Rat) (y : Rat) (w : Rat) (h : Rat)] ∧
      pathOps (nk_cairo_fill_rect x y w h r col) =
        [.rectangle (x : Rat) (y : Rat) (w : Rat) (h : Rat)]) ∧
    (0 < r →
      pathOps (nk_cairo_stroke_rect x y w h r t col) =
        [.newSubPath,
         .arc ((x : Rat) + w - r) ((y : Rat) + r) (r : Rat) (-90) 0,
         .arc ((x : Rat) + w - r) ((y : Rat) + h - r) (r : Rat) 0 90,
         .arc ((x : Rat) + r) ((y : Rat) + h - r) (r : Rat) 90 180,
         .arc ((x : Rat) + r) ((y : Rat) + r) (r : Rat) 180 270,
         .closePath] ∧
      pathOps (nk_cairo_fill_rect x y w h r col) =
        [.newSubPath,
         .arc ((x : Rat) + w - r) ((y : Rat) + r) (r : Rat) (-90) 0,
         .arc ((x : Rat) + w - r) ((y : Rat) + h - r) (r : Rat) 0 90,
         .arc ((x : Rat) + r) ((y : Rat) + h - r) (r : Rat) 90 180,
         .arc ((x : Rat) + r) ((y : Rat) + r) (r : Rat) 180 270,
         .closePath]) ∧
    (nk_cairo_stroke_rect x y w h r t col).getLast? = some .stroke ∧
    (nk_cairo_fill_rect x y w h r col).getLast? = some .fill := by
  refine ⟨?_, ?_, ?_, ?_⟩
  · intro hr
    subst hr
    constructor <;>
      simp [pathOps, nk_cairo_stroke_rect, nk_cairo_fill_rect,
        nk_cairo_set_color, CairoOp.isPathOp]
  · intro hr
    have hr0 : r ≠ 0 := hr.ne'
    constructor <;>
      simp [pathOps, nk_cairo_stroke_rect, nk_cairo_fill_rect,
        nk_cairo_set_color, CairoOp.isPathOp, hr0]
  · by_cases hr : r = 0 <;>
      simp [nk_cairo_stroke_rect, nk_cairo_set_color, hr]
  · by_cases hr : r = 0 <;>
      simp [nk_cairo_fill_rect, nk_cairo_set_color, hr]

theorem C5_rect_path_witness :
    pathOps (nk_cairo_stroke_rect 1 2 30 20 0 3 ⟨10, 20, 30, 40⟩) =
      [.rectangle 1 2 30 20] ∧
    pathOps (nk_cairo_fill_rect 1 2 30 20 4 ⟨10, 20, 30, 40⟩) =
      [.newSubPath, .arc 27 6 4 (-90) 0, .arc 27 18 4 0 90,
       .arc 5 18 4 90 180, .arc 5 6 4 180 270, .closePath] := by
  have h0 := C5_rect_path 1 2 30 20 0 3 ⟨10, 20, 30, 40⟩
  have h4 := C5_rect_path 1 2 30 20 4 3 ⟨10, 20, 30, 40⟩
  refine ⟨?_, ?_⟩
  · have := (h0.1 rfl).1
    simpa using this
  · have := (h4.2.1 (by norm_num)).2
    norm_num at this
    exact this

/-- C6 (counterexample): for the filled-circle command with bounding box
(0, 0, 10, 4) the code draws the circle at center (2, 2), but the center of
the bounding box is (5, 2); and for box (0, 0, 5, 5) the drawn radius is
the integer quotient 2, not half of min(w, h) = 5/2. -/
theorem C6_circle_counterexample :
    cairoOps (renderCmd fe0 (.circleFilled 0 0 10 4 ⟨0, 0, 0, 255⟩)) =
      nk_cairo_fill_circle 2 2 2 ⟨0, 0, 0, 255⟩ ∧
    pathOps (nk_cairo_fill_circle 2 2 2 ⟨0, 0, 0, 255⟩) =
      [.newSubPath, .arc 2 2 2 0 360, .closePath] ∧
    ((2 : Rat) ≠ 0 + 10 / 2) ∧
    cairoOps (renderCmd fe0 (.circle 0 0 5 5 1 ⟨0, 0, 0, 255⟩)) =
      nk_cairo_stroke_circle 2 2 2 1 ⟨0, 0, 0, 255⟩ ∧
    ((2 : Rat) ≠ 5 / 2) := by
  refine ⟨?_, ?_, by norm_num, ?_, by norm_num⟩
  · simp [renderCmd, cairoOps_map_cairo]
  · norm_num [pathOps, nk_cairo_fill_circle, nk_cairo_set_color,
      CairoOp.isPathOp]
  · simp [renderCmd, cairoOps_map_cairo]

/-- C6 (amended): both circle commands draw a full circle of radius
`r = ⌊min(w, h) / 2⌋` centered at `(x + r, y + r)`: the circle is inscribed
flush with the top-left corner of the bounding box and stays inside it, but
its center coincides with the box center only when `w = h` and the radius
is exactly half. -/
theorem C6_circle_geometry (fe : Nat → Int → FontExtents) (x y : Int)
    (w h : Nat) (t : Nat) (col : NkColor) :
    ∃ r : Int,
      cairoOps (renderCmd fe (.circle x y w h t col)) =
        nk_cairo_stroke_circle (x + r) (y + r) r (t : Int) col ∧
      cairoOps (renderCmd fe (.circleFilled x y w h col)) =
        nk_cairo_fill_circle (x + r) (y + r) r col ∧
      pathOps (nk_cairo_stroke_circle (x + r) (y + r) r (t : Int) col) =
        [.newSubPath,
         .arc ((x + r : Int) : Rat) ((y + r : Int) : Rat) (r : Rat) 0 360,
         .closePath] ∧
      pathOps (nk_cairo_fill_circle (x + r) (y + r) r col) =
        [.newSubPath,
         .arc ((x + r : Int) : Rat) ((y + r : Int) : Rat) (r : Rat) 0 360,
         .closePath] ∧
      0 ≤ r ∧
      2 * r ≤ min (w : Int) (h : Int) ∧
      min (w : Int) (h : Int) < 2 * r + 2 ∧
      (x + r) - r = x ∧ (y + r) - r = y ∧
      (x + r) + r ≤ x + (w : Int) ∧ (y + r) + r ≤ y + (h : Int) := by
  have hmin : (if w < h then w else h) = min w h := by
    split <;> omega
  refine ⟨((min w h / 2 : Nat) : Int), ?_, ?_, ?_, ?_, ?_, ?_, ?_, ?_, ?_,
    ?_, ?_⟩
  · simp [renderCmd, hmin, cairoOps_map_cairo]
  · simp [renderCmd, hmin, cairoOps_map_cairo]
  · simp [pathOps, nk_cairo_stroke_circle, nk_cairo_set_color,
      CairoOp.isPathOp]
  · simp [pathOps, nk_cairo_fill_circle, nk_cairo_set_color,
      CairoOp.isPathOp]
  · omega
  · omega
  · omega
  · omega
  · omega
  · omega
  · omega

/-- C9: the image blit scales by `(w / img.w, h / img.h)` independently,
sets the source surface at the inverse-scaled position so that the source
top-left lands exactly at `(x, y)` of the pre-scale coordinate frame,
paints, and afterwards restores the transform that was saved before the
scale. -/
theorem C9_drawimage_geometry (x y : Int) (w h : Int) (img : NkImage)
    (m : Ctm) (hiw : 0 < img.w) (hih : 0 < img.h)
    (hw : w ≠ 0) (hh : h ≠ 0) :
    nk_cairo_drawimage x y w h img =
      [.getMatrix, .scale ((w : Rat) / (img.w : Rat))
         ((h : Rat) / (img.h : Rat)),
       .createSurfaceForData img.w img.h,
       .setSourceSurface ((x : Rat) / ((w : Rat) / (img.w : Rat)))
         ((y : Rat) / ((h : Rat) / (img.h : Rat))),
       .paint, .surfaceDestroy, .setMatrixSaved] ∧
    ((w : Rat) / (img.w : Rat)) *
        ((x : Rat) / ((w : Rat) / (img.w : Rat))) = (x : Rat) ∧
    ((h : Rat) / (img.h : Rat)) *
        ((y : Rat) / ((h : Rat) / (img.h : Rat))) = (y : Rat) ∧
    (runCtm (nk_cairo_drawimage x y w h img) (m, none)).1 = m := by
  have hwr : (w : Rat) ≠ 0 := Int.cast_ne_zero.mpr hw
  have hhr : (h : Rat) ≠ 0 := Int.cast_ne_zero.mpr hh
  have hiwr : ((img.w : Nat) : Rat) ≠ 0 := Nat.cast_ne_zero.mpr hiw.ne'
  have hihr : ((img.h : Nat) : Rat) ≠ 0 := Nat.cast_ne_zero.mpr hih.ne'
  have hxs : (w : Rat) / (img.w : Rat) ≠ 0 := div_ne_zero hwr hiwr
  have hys : (h : Rat) / (img.h : Rat) ≠ 0 := div_ne_zero hhr hihr
  refine ⟨rfl, ?_, ?_, rfl⟩
  · rw [mul_comm]
    exact div_mul_cancel₀ (x : Rat) hxs
  · rw [mul_comm]
    exact div_mul_cancel₀ (y : Rat) hys

theorem C9_drawimage_geometry_witness :
    (runCtm (nk_cairo_drawimage 3 4 10 6 ⟨5, 2⟩) (⟨1, 1⟩, none)).1 =
      (⟨1, 1⟩ : Ctm) :=
  (C9_drawimage_geometry 3 4 10 6 ⟨5, 2⟩ ⟨1, 1⟩ (by decide) (by decide)
    (by decide) (by decide)).2.2.2

/-- C4 (counterexample): the arc command is not one of the two unsupported
kinds, yet its dispatch arm also writes a diagnostic line to `stderr`
(`"NK_COMMAND_ARC"`), before going on to draw the arc. -/
theorem C4_arc_also_logs :
    NkCommand.unsupported (.arcCmd 1 2 3 0 1 1 ⟨0, 0, 0, 255⟩) = false ∧
    diags (renderCmd fe0 (.arcCmd 1 2 3 0 1 1 ⟨0, 0, 0, 255⟩)) =
      ["NK_COMMAND_ARC\n"] ∧
    cairoOps (renderCmd fe0 (.arcCmd 1 2 3 0 1 1 ⟨0, 0, 0, 255⟩)) ≠ [] := by
  refine ⟨rfl, ?_, ?_⟩
  · simp [renderCmd, diags, List.filterMap_cons, diags_map_cairo]
  · simp [renderCmd, cairoOps, List.filterMap_cons, cairoOps_map_cairo,
      nk_cairo_stroke_arc, nk_cairo_set_color]

/-- C4 (amended): each of curve and multi-color rectangle emits exactly one
diagnostic line and no cairo call; each of the two arc commands also emits
exactly one diagnostic line (and then draws); every other command kind
emits none; and the render loop always continues with the remaining
commands after any command. -/
theorem C4_diagnostics (fe : Nat → Int → FontExtents) (cmd : NkCommand) :
    (diags (renderCmd fe cmd)).length =
      (if cmd.logsDiag then 1 else 0) ∧
    (cmd.unsupported = true → cairoOps (renderCmd fe cmd) = []) ∧
    (∀ w h rest, (nk_cairo_render fe (cmd :: rest) w h).1 =
      (nk_cairo_scissor 0 0 (w : Rat) (h : Rat)).map .cairo ++
      (renderCmd fe cmd ++
        ((rest.map (renderCmd fe)).flatten ++
          [.cairo .surfaceFlush, .cairo .surfaceDestroy,
           .cairo .contextDestroy]))) := by
  refine ⟨?_, ?_, ?_⟩
  · cases cmd <;>
      simp [renderCmd, NkCommand.logsDiag, diags, List.filterMap_cons,
        diags_map_cairo]
  · intro hu
    cases cmd <;> simp [NkCommand.unsupported] at hu <;>
      simp [renderCmd, cairoOps]
  · intro w h rest
    simp [nk_cairo_render, List.append_assoc]

theorem C4_diagnostics_witness :
    cairoOps (renderCmd fe0 .curve) = [] ∧
    (diags (renderCmd fe0 .curve)).length = 1 := by
  have hc := C4_diagnostics fe0 .curve
  exact ⟨hc.2.1 rfl, by simpa using hc.1⟩

lemma applyEffects_no_paint {B : Type} (interp : CairoOp → B → B)
    (hid : ∀ o b, CairoOp.paints o = false → interp o b = b) :
    ∀ (l : List Effect),
      (∀ o, Effect.cairo o ∈ l → CairoOp.paints o = false) →
      ∀ buf, applyEffects interp l buf = buf := by
  intro l
  induction l with
  | nil => intro _ buf; rfl
  | cons e rest ih =>
      intro hmem buf
      cases e with
      | cairo o =>
          rw [applyEffects, hid o buf (hmem o (List.mem_cons_self _ _))]
          exact ih (fun o ho => hmem o (List.mem_cons_of_mem _ ho)) buf
      | diag m =>
          rw [applyEffects]
          exact ih (fun o ho => hmem o (List.mem_cons_of_mem _ ho)) buf

/-- C8: every render call leaves the toolkit's command list empty
(`nk_clear`), and its trace ends with the surface flush followed by the
surface and context releases; a render call with an empty command list
performs no painting cairo call, so under any pixel-buffer interpretation
in which non-painting calls leave the buffer unchanged, the target buffer
is unchanged. -/
theorem C8_frame_lifecycle {B : Type} (fe : Nat → Int → FontExtents)
    (cmds : List NkCommand) (w h : Nat) (interp : CairoOp → B → B)
    (hid : ∀ o b, CairoOp.paints o = false → interp o b = b) (buf : B) :
    (nk_cairo_render fe cmds w h).2 = [] ∧
    (nk_cairo_render fe cmds w h).1.getLast? =
      some (.cairo .contextDestroy) ∧
    ((nk_cairo_render fe cmds w h).1.dropLast.getLast? =
      some (.cairo .surfaceDestroy)) ∧
    ((nk_cairo_render fe cmds w h).1.dropLast.dropLast.getLast? =
      some (.cairo .surfaceFlush)) ∧
    (cairoOps (nk_cairo_render fe [] w h).1).filter CairoOp.paints = [] ∧
    applyEffects interp (nk_cairo_render fe [] w h).1 buf = buf := by
  refine ⟨rfl, ?_, ?_, ?_, ?_, ?_⟩
  · simp [nk_cairo_render]
  · simp [nk_cairo_render, List.dropLast_append_of_ne_nil,
      List.dropLast_concat]
  · simp [nk_cairo_render]
  · simp [nk_cairo_render, nk_cairo_scissor, cairoOps,
      List.filterMap_cons, CairoOp.paints]
  · refine applyEffects_no_paint interp hid _ ?_ buf
    intro o hmem
    simp [nk_cairo_render, nk_cairo_scissor] at hmem
    rcases hmem with h | h | h | h | h | h | h | h | h | h | h <;>
      subst h <;> rfl

theorem C8_frame_lifecycle_witness :
    (nk_cairo_render fe0 [NkCommand.curve] 4 3).2 = [] ∧
    (nk_cairo_render fe0 [NkCommand.curve] 4 3).1.getLast? =
      some (.cairo .contextDestroy) ∧
    ((nk_cairo_render fe0 [NkCommand.curve] 4 3).1.dropLast.getLast? =
      some (.cairo .surfaceDestroy)) ∧
    ((nk_cairo_render fe0 [NkCommand.curve] 4 3).1.dropLast.dropLast.getLast?
      = some (.cairo .surfaceFlush)) ∧
    (cairoOps (nk_cairo_render fe0 [] 4 3).1).filter CairoOp.paints = [] ∧
    applyEffects interp0 (nk_cairo_render fe0 [] 4 3).1 [] = [] :=
  C8_frame_lifecycle fe0 [NkCommand.curve] 4 3 interp0
    (fun o b hpf => by simp [interp0, hpf]) []

lemma findFace_append_self (faces : List String) (ttf : String)
    (hnone : findFace faces ttf = none) :
    findFace (faces ++ [ttf]) ttf = some faces.length := by
  induction faces with
  | nil => simp [findFace]
  | cons f rest ih =>
      unfold findFace at hnone ⊢
      by_cases hf : f = ttf
      · simp [hf] at hnone
      · simp only [hf, if_false, List.cons_append]
        rw [ih (by simpa [hf] using hnone)]
        simp

lemma findFont_append_self (fonts : List FontEntry) (face : Nat)
    (size : Int) (hgt : Rat)
    (hnone : findFont fonts face size = none) :
    findFont (fonts ++ [⟨face, size, hgt⟩]) face size =
      some fonts.length := by
  induction fonts with
  | nil => simp [findFont]
  | cons e rest ih =>
      unfold findFont at hnone ⊢
      by_cases he : e.face = face ∧ e.size = size
      · simp [he] at hnone
      · simp only [he, if_false, List.cons_append]
        rw [ih (by simpa [he] using hnone)]
        simp

lemma ttfSized_found (fe : Nat → Int → FontExtents) (s : CairoState)
    (face : Nat) (size : Int) (loaded : Bool) (r : TtfResult)
    (hok : ttfSized fe s face size loaded = .ok r) :
    findFont r.state.fonts face size = some r.handle ∧
    r.state.faces = s.faces := by
  unfold ttfSized at hok
  cases hff : findFont s.fonts face size with
  | some font =>
      rw [hff] at hok
      cases hok
      exact ⟨hff, rfl⟩
  | none =>
      rw [hff] at hok
      by_cases hcap : s.fonts.length < MAXFONTS
      · rw [if_pos hcap] at hok
        cases hok
        exact ⟨findFont_append_self s.fonts face size _ hff, rfl⟩
      · rw [if_neg hcap] at hok
        exact absurd hok (by simp)

lemma ttfSized_stable (fe : Nat → Int → FontExtents) (s : CairoState)
    (face : Nat) (size : Int) (loaded : Bool) (r : TtfResult)
    (hok : ttfSized fe s face size loaded = .ok r) :
    ttfSized fe r.state face size false = .ok ⟨r.state, r.handle, false⟩ := by
  have hfind := (ttfSized_found fe s face size loaded r hok).1
  unfold ttfSized
  rw [hfind]

/-- C1: if an `nk_cairo_ttf` call succeeds, repeating it with the same path
and size returns the same handle, leaves both tables exactly as they were
(no second face entry for the path, no second sized-font entry for the
pair), and performs no `FT_New_Face` font-file load. -/
theorem C1_ttf_idempotent (ftOk : String → Bool)
    (fe : Nat → Int → FontExtents) (s : CairoState) (ttf : String)
    (size : Int) (r : TtfResult)
    (hok : nk_cairo_ttf ftOk fe s ttf size = .ok r) :
    nk_cairo_ttf ftOk fe r.state ttf size =
      .ok ⟨r.state, r.handle, false⟩ := by
  unfold nk_cairo_ttf at hok ⊢
  cases hf : findFace s.faces ttf with
  | some face =>
      rw [hf] at hok
      have hfaces := (ttfSized_found fe s face size false r hok).2
      rw [hfaces, hf]
      exact ttfSized_stable fe s face size false r hok
  | none =>
      rw [hf] at hok
      by_cases hcap : s.faces.length < MAXFONTS
      · by_cases hft : ftOk ttf
        · rw [if_pos hcap, if_pos hft] at hok
          have hfaces :=
            (ttfSized_found fe _ s.faces.length size true r hok).2
          have hfind : findFace r.state.faces ttf = some s.faces.length := by
            rw [hfaces]
            exact findFace_append_self s.faces ttf hf
          rw [hfind]
          exact ttfSized_stable fe _ s.faces.length size true r hok
        · rw [if_pos hcap, if_neg hft] at hok
          exact absurd hok (by simp)
      · rw [if_neg hcap] at hok
        exact absurd hok (by simp)

theorem C1_ttf_idempotent_witness :
    nk_cairo_ttf ftOk0 fe0 ⟨["a"], [⟨0, 12, 3⟩]⟩ "a" 12 =
      .ok ⟨⟨["a"], [⟨0, 12, 3⟩]⟩, 0, false⟩ :=
  C1_ttf_idempotent ftOk0 fe0 initState "a" 12
    ⟨⟨["a"], [⟨0, 12, 3⟩]⟩, 0, true⟩ rfl

lemma ttfSized_capacity (fe : Nat → Int → FontExtents) (s : CairoState)
    (face : Nat) (size : Int) (loaded : Bool) (r : TtfResult)
    (hok : ttfSized fe s face size loaded = .ok r)
    (hfaces : s.faces.length ≤ MAXFONTS)
    (hfonts : s.fonts.length ≤ MAXFONTS) :
    r.state.faces.length ≤ MAXFONTS ∧
    r.state.fonts.length ≤ MAXFONTS := by
  unfold ttfSized at hok
  cases hff : findFont s.fonts face size with
  | some font =>
      rw [hff] at hok
      cases hok
      exact ⟨hfaces, hfonts⟩
  | none =>
      rw [hff] at hok
      by_cases hcap : s.fonts.length < MAXFONTS
      · rw [if_pos hcap] at hok
        cases hok
        constructor
        · exact hfaces
        · simpa using hcap
      · rw [if_neg hcap] at hok
        exact absurd hok (by simp)

lemma ttf_capacity_step (ftOk : String → Bool)
    (fe : Nat → Int → FontExtents) (s : CairoState) (ttf : String)
    (size : Int) (r : TtfResult)
    (hok : nk_cairo_ttf ftOk fe s ttf size = .ok r)
    (hfaces : s.faces.length ≤ MAXFONTS)
    (hfonts : s.fonts.length ≤ MAXFONTS) :
    r.state.faces.length ≤ MAXFONTS ∧
    r.state.fonts.length ≤ MAXFONTS := by
  unfold nk_cairo_ttf at hok
  cases hf : findFace s.faces ttf with
  | some face =>
      rw [hf] at hok
      exact ttfSized_capacity fe s face size false r hok hfaces hfonts
  | none =>
      rw [hf] at hok
      by_cases hcap : s.faces.length < MAXFONTS
      · by_cases hft : ftOk ttf
        · rw [if_pos hcap, if_pos hft] at hok
          refine ttfSized_capacity fe _ s.faces.length size true r hok
            ?_ hfonts
          simpa using hcap
        · rw [if_pos hcap, if_neg hft] at hok
          exact absurd hok (by simp)
      · rw [if_neg hcap] at hok
        exact absurd hok (by simp)

lemma runTtfCalls_capacity (ftOk : String → Bool)
    (fe : Nat → Int → FontExtents) (calls : List (String × Int)) :
    ∀ s : CairoState, s.faces.length ≤ MAXFONTS →
      s.fonts.length ≤ MAXFONTS →
      (∃ e, runTtfCalls ftOk fe calls s = .error e) ∨
      (∃ s2, runTtfCalls ftOk fe calls s = .ok s2 ∧
        s2.faces.length ≤ MAXFONTS ∧ s2.fonts.length ≤ MAXFONTS) := by
  induction calls with
  | nil =>
      intro s hfaces hfonts
      exact .inr ⟨s, rfl, hfaces, hfonts⟩
  | cons c rest ih =>
      intro s hfaces hfonts
      obtain ⟨t, sz⟩ := c
      cases hcall : nk_cairo_ttf ftOk fe s t sz with
      | error e =>
          exact .inl ⟨e, by simp [runTtfCalls, hcall]⟩
      | ok r =>
          have hb := ttf_capacity_step ftOk fe s t sz r hcall hfaces hfonts
          have := ih r.state hb.1 hb.2
          simpa [runTtfCalls, hcall] using this

/-- C7: starting from the empty tables, any sequence of `nk_cairo_ttf`
calls either dies on a fatal assertion (capacity or parse failure) without
writing past a table, or succeeds with both the face count and the
sized-font count still at most `MAXFONTS = 16`. -/
theorem C7_table_capacity (ftOk : String → Bool)
    (fe : Nat → Int → FontExtents) (calls : List (String × Int)) :
    (∃ e, runTtfCalls ftOk fe calls initState = .error e) ∨
    (∃ s, runTtfCalls ftOk fe calls initState = .ok s ∧
      s.faces.length ≤ MAXFONTS ∧ s.fonts.length ≤ MAXFONTS) :=
  runTtfCalls_capacity ftOk fe calls initState (by simp [initState])
    (by simp [initState])
